import Mathlib

/-!
Verification development for the adf-lint repository.

The Python sources under src/adf_lint (helper.py, adf_linter.py, main.py) are
shallowly embedded below.  Strings are handled through their character lists
(String.data) with structural recursion, so that every definition evaluates
inside the kernel.  Python dictionaries with optional keys become structures
with Option fields (a none field models an absent key); a direct subscript of
a possibly-absent key becomes an Except returning a lookup error, while
dict.get with a default becomes Option.getD.
-/

set_option autoImplicit false

/-- Python runtime errors that the embedded code can raise.  An uncaught error
aborts the run and makes the interpreter exit with status 1. -/
inductive PyErr where
  | keyError
  | typeError
  | attributeError
  | indexError
  deriving DecidableEq, Repr

instance {ε α : Type} [DecidableEq ε] [DecidableEq α] : DecidableEq (Except ε α)
  | .ok a, .ok b =>
    match decEq a b with
    | isTrue h => isTrue (h ▸ rfl)
    | isFalse h => isFalse (fun hc => h (Except.ok.inj hc))
  | .error a, .error b =>
    match decEq a b with
    | isTrue h => isTrue (h ▸ rfl)
    | isFalse h => isFalse (fun hc => h (Except.error.inj hc))
  | .ok _, .error _ => isFalse (fun hc => Except.noConfusion hc)
  | .error _, .ok _ => isFalse (fun hc => Except.noConfusion hc)

/-- Index just after the first slash of the list, 0 when there is none.
This is the Python expression raw_value.find(&quot;/&quot;) + 1 of helper.py line 6
(find returns -1 when the character is absent, so the sum is 0). -/
def slashStart (l : List Char) : Nat :=
  match l.findIdx? (fun c => c = '/') with
  | some i => i + 1
  | none => 0

/-- Index of the last occurrence of a character, as Python str.rfind, except
that the absent case is an Option rather than -1. -/
def lastIdxOf (l : List Char) (c : Char) : Option Nat :=
  match l.reverse.findIdx? (fun d => d = c) with
  | some j => some (l.length - 1 - j)
  | none => none

/-- Character-level body of helper.clean_name (helper.py lines 4-8):
raw_value[slash_index:last_quote_index].  When the raw value holds a closing
quote at index j the Python slice is [slashStart:j]; when it does not,
rfind returns -1 and the slice is [slashStart:-1], that is, everything up to
but excluding the final character.  Both cases are spelled with take and
drop below; no error is ever raised. -/
def cleanNameL (l : List Char) : List Char :=
  match lastIdxOf l '\'' with
  | some j => (l.take j).drop (slashStart l)
  | none => (l.take (l.length - 1)).drop (slashStart l)

/-- helper.clean_name: get the string between the first slash and the last
single quote of the raw ARM name expression. -/
def clean_name (s : String) : String :=
  String.mk (cleanNameL s.data)

/-- Character-level body of helper.clean_type (helper.py lines 11-14):
raw_value[last_slash_index:] with last_slash_index = rfind + 1. -/
def cleanTypeL (l : List Char) : List Char :=
  match lastIdxOf l '/' with
  | some j => l.drop (j + 1)
  | none => l

/-- helper.clean_type: the substring after the last slash of the raw type. -/
def clean_type (s : String) : String :=
  String.mk (cleanTypeL s.data)

/-- Python str.replace applied to single characters, used for
clean_name(dependant).replace(slash, bar) in helper.py lines 32 and 39. -/
def replaceSlashWithBar (s : String) : String :=
  String.mk (s.data.map (fun c => if c = '/' then '|' else c))

/-- Bool test that the first list occurs as a contiguous infix of the second,
modelling the Python in operator on strings. -/
def listIsInfix (n : List Char) : List Char → Bool
  | [] => n.isEmpty
  | c :: t => n.isPrefixOf (c :: t) || listIsInfix n t

/-- Python substring membership: sub in s. -/
def strContains (s sub : String) : Bool :=
  listIsInfix sub.data s.data

/-- Python str.startswith. -/
def strStartsWith (s p : String) : Bool :=
  p.data.isPrefixOf s.data

/-- Python str.lower, character by character. -/
def lowerStr (s : String) : String :=
  String.mk (s.data.map Char.toLower)

/-- helper.is_sensitive_property (helper.py lines 66-73). -/
def is_sensitive_property (name : String) : Bool :=
  let lowered := lowerStr name
  strContains lowered "key" || strContains lowered "secret" ||
    strContains lowered "password" || strContains lowered "token"

/-- The second bar-separated field of an identifier, modelling the Python
expression redundant_resource.split(bar)[1] of adf_linter.py.  Every element
of the redundant-resource list has the shape family|name (helper.py line 24),
so the index-1 access never fails there; on a bar-free string this model
returns the empty string where Python would raise IndexError, a case that is
unreachable from the call sites. -/
def partsSecond (r : String) : String :=
  String.mk (((r.data.dropWhile (fun c => !(c = '|'))).drop 1).takeWhile (fun c => !(c = '|')))

/-- Strings are equal exactly when their character lists are. -/
theorem string_eq_empty_iff (t : String) : t = "" ↔ t.data = [] := by
  cases t with
  | mk d =>
    constructor
    · intro h
      have := congrArg String.data h
      simpa using this
    · intro h
      subst h
      rfl

/-- The cleaned name of a nonempty raw value is strictly shorter than the raw
value: both slice forms of cleanNameL cut at least the final character. -/
theorem cleanNameL_length_lt (l : List Char) (h : l ≠ []) :
    (cleanNameL l).length < l.length := by
  have hlen : 1 ≤ l.length := by
    cases l with
    | nil => exact absurd rfl h
    | cons a t => simp
  cases hq : lastIdxOf l '\'' with
  | some j =>
    have hj : j ≤ l.length - 1 := by
      unfold lastIdxOf at hq
      cases hr : (l.reverse.findIdx? (fun d => d = '\'')) with
      | some k => rw [hr] at hq; injection hq with hq2; omega
      | none => rw [hr] at hq; exact absurd hq (by simp)
    simp only [cleanNameL, hq, List.length_drop, List.length_take]
    omega
  | none =>
    simp only [cleanNameL, hq, List.length_drop, List.length_take]
    omega

/-- Claim C6 counterexample: a raw name with no closing single quote does not
make the parser fail; clean_name silently returns the input truncated by one
character (here Pipeline1 becomes Pipeline). -/
theorem c6_no_quote_returns_truncated :
    lastIdxOf ("Pipeline1").data '\'' = none ∧ clean_name "Pipeline1" = "Pipeline" := by
  constructor
  · decide
  · decide

/-- Claim C6 (amended): for every raw name string the parser returns the
substring strictly between the first slash (or index 0 when no slash is
present) and the final single quote; when no closing single quote is present
it does not fail, and instead returns the substring from after the first
slash up to but excluding the last character. -/
theorem c6_clean_name_between_delimiters (s : String) :
    (clean_name s).data =
      match lastIdxOf s.data '\'' with
      | some j => (s.data.drop (slashStart s.data)).take (j - slashStart s.data)
      | none => (s.data.drop (slashStart s.data)).dropLast := by
  cases hq : lastIdxOf s.data '\'' with
  | some j =>
    simp only [clean_name, cleanNameL, hq]
    rw [List.drop_take]
  | none =>
    simp only [clean_name, cleanNameL, hq]
    rw [List.drop_take]
    rw [List.dropLast_eq_take]
    congr 1
    simp [Nat.sub_right_comm]

/-- Claim C7 counterexample: canonicalization is not idempotent on its own
output.  On the raw value x QUOTE / A QUOTE the parser succeeds (a closing
quote exists) and returns A, but cleaning A again strips its last character
and yields the empty string. -/
theorem c7_clean_name_not_idempotent :
    lastIdxOf (String.mk ['x', '\'', '/', 'A', '\'']).data '\'' ≠ none ∧
      clean_name (clean_name (String.mk ['x', '\'', '/', 'A', '\''])) ≠
        clean_name (String.mk ['x', '\'', '/', 'A', '\'']) := by
  constructor
  · decide
  · decide

/-- Claim C7 (amended): applying clean_name to its own output returns that
output unchanged exactly when the output is the empty string; on every
nonempty output a second application strictly shortens the string. -/
theorem c7_idempotent_iff_empty (s : String) :
    clean_name (clean_name s) = clean_name s ↔ clean_name s = "" := by
  constructor
  · intro h
    by_contra hne
    have hd : (clean_name s).data ≠ [] := by
      intro hnil
      exact hne ((string_eq_empty_iff (clean_name s)).mpr hnil)
    have hlt := cleanNameL_length_lt (clean_name s).data hd
    have hdata : (clean_name (clean_name s)).data = (clean_name s).data :=
      congrArg String.data h
    have hform : (clean_name (clean_name s)).data = cleanNameL (clean_name s).data := rfl
    rw [hform] at hdata
    have := congrArg List.length hdata
    omega
  · intro h
    rw [h]
    decide

/-- Folder metadata of a pipeline or dataset: the properties.folder object,
holding an optional name key. -/
structure Folder where
  name : Option String
  deriving DecidableEq

/-- An activity policy object; only the timeout key is read by the linter. -/
structure Policy where
  timeout : Option String
  deriving DecidableEq

/-- The typeProperties object of an activity; the three keys read by the
linter, each possibly absent. -/
structure TypeProps where
  dataIntegrationUnits : Option Nat
  isSequential : Option Bool
  batchCount : Option Nat
  deriving DecidableEq

/-- One entry of an activity dependsOn list: a target activity name and its
dependency conditions. -/
structure Dep where
  activity : String
  dependencyConditions : List String
  deriving DecidableEq

/-- An activity nested inside a pipeline.  The name key is modelled as
required (every activity of a well-formed template carries one); the other
keys are optional exactly where the linter reads them defensively or where a
direct subscript can raise. -/
structure Activity where
  name : String
  type : Option String
  description : Option String
  policy : Option Policy
  typeProperties : Option TypeProps
  dependsOn : Option (List Dep)
  deriving DecidableEq

/-- The properties object of a top-level resource.  The fields cover every
key the linter reads: description, annotations and folder for hygiene rules,
activities for pipelines, type and typeProperties for linked services.  A
linked-service typeProperties is a key-value mapping whose values are
modelled by their Python str rendering, which is all the key-vault rule looks
at. -/
structure Props where
  description : Option String
  annotations : Option (List String)
  folder : Option Folder
  activities : Option (List Activity)
  type : Option String
  typeProperties : Option (List (String × String))
  deriving DecidableEq

/-- A top-level resource of the template: name, type and properties are
required by the documented input shape; dependsOn may be absent. -/
structure Resource where
  name : String
  type : String
  properties : Props
  dependsOn : Option (List String)
  deriving DecidableEq

/-- The parsed template document. -/
structure ADF where
  resources : List Resource
  deriving DecidableEq

/-- Canonical family|name identifier of a resource, as built in
helper.py lines 22-24: clean_type of the raw type, a bar, clean_name of the
raw name. -/
def resId (r : Resource) : String :=
  clean_type r.type ++ "|" ++ clean_name r.name

/-- Canonicalized dependsOn target, helper.py lines 31-32 and 38-39:
clean_name of the entry with every slash replaced by a bar.  The entries are
strings, so the str() wrapper of the single-entry branch is the identity. -/
def canonicalTarget (d : String) : String :=
  replaceSlashWithBar (clean_name d)

/-- Append an element to the end of a list unless it is already present,
the Python pattern of a membership-guarded append used throughout the
source. -/
def addUnique (l : List String) (x : String) : List String :=
  if x ∈ l then l else l ++ [x]

theorem mem_addUnique (l : List String) (x y : String) :
    y ∈ addUnique l x ↔ y ∈ l ∨ y = x := by
  by_cases h : x ∈ l
  · simp only [addUnique, if_pos h]
    constructor
    · exact Or.inl
    · intro hy
      cases hy with
      | inl h2 => exact h2
      | inr h2 => exact h2 ▸ h
  · simp [addUnique, if_neg h]

/-- Membership in a left fold whose step adds to the accumulator exactly the
contributions described by C. -/
theorem mem_foldl_prop {β : Type} (step : List String → β → List String)
    (C : β → String → Prop)
    (hstep : ∀ acc b y, y ∈ step acc b ↔ y ∈ acc ∨ C b y) :
    ∀ (l : List β) (acc : List String) (y : String),
      y ∈ l.foldl step acc ↔ y ∈ acc ∨ ∃ b ∈ l, C b y := by
  intro l
  induction l with
  | nil => intro acc y; simp
  | cons a t ih =>
    intro acc y
    rw [List.foldl_cons, ih, hstep]
    constructor
    · rintro ((hy | hC) | ⟨b, hb, hCb⟩)
      · exact Or.inl hy
      · exact Or.inr ⟨a, List.mem_cons_self a t, hC⟩
      · exact Or.inr ⟨b, List.mem_cons_of_mem a hb, hCb⟩
    · rintro (hy | ⟨b, hb, hCb⟩)
      · exact Or.inl (Or.inl hy)
      · rcases List.mem_cons.mp hb with rfl | hbt
        · exact Or.inl (Or.inr hCb)
        · exact Or.inr ⟨b, hbt, hCb⟩

/-- Step of the first loop of get_resource_dependants (helper.py lines
21-27): record each canonical identifier once. -/
def resourcesListStep (acc : List String) (r : Resource) : List String :=
  addUnique acc (resId r)

/-- resources_list of helper.py: deduplicated identifiers in declaration
order. -/
def buildResourcesList (rs : List Resource) : List String :=
  rs.foldl resourcesListStep []

/-- Step of the second loop of get_resource_dependants (helper.py lines
29-42).  A single-entry dependsOn is parsed through str() and cleaned; any
other present dependsOn has each entry cleaned; both branches produce the
same canonical target for string entries. -/
def dependantsStep (acc : List String) (r : Resource) : List String :=
  match r.dependsOn with
  | some ds =>
    if ds.length == 1 then addUnique acc (canonicalTarget (ds.headD ""))
    else ds.foldl (fun a d => addUnique a (canonicalTarget d)) acc
  | none => acc

/-- Step of the trigger loop of get_resource_dependants (helper.py lines
44-51): a trigger with a nonempty dependsOn adds its own identifier. -/
def triggersStep (acc : List String) (t : Resource) : List String :=
  match t.dependsOn with
  | some ds => if 1 ≤ ds.length then addUnique acc (resId t) else acc
  | none => acc

/-- dependants_list of helper.py after both loops. -/
def buildDependantsList (rs triggers : List Resource) : List String :=
  triggers.foldl triggersStep (rs.foldl dependantsStep [])

/-- helper.get_resource_dependants (helper.py lines 17-53): the declared
identifiers that are never referenced. -/
def get_resource_dependants (adf : ADF) (triggers : List Resource) : List String :=
  (buildResourcesList adf.resources).filter
    (fun r => !((buildDependantsList adf.resources triggers).contains r))

/-- Spec-side helper: first-occurrence deduplication preserving order. -/
def pyDedup (l : List String) : List String :=
  l.foldl addUnique []

/-- Spec-side definition, from claim C2: declared is the deduplicated list of
family|name identifiers of all top-level resources, in declaration order. -/
def declaredSpec (adf : ADF) : List String :=
  pyDedup (adf.resources.map resId)

/-- Spec-side definition, from claim C2: an identifier is referenced when it
is the canonicalized target of some dependsOn entry of some resource, or when
it is the identifier of a trigger that itself has one or more dependsOn
entries. -/
def referencedSpecB (adf : ADF) (triggers : List Resource) (y : String) : Bool :=
  adf.resources.any (fun r => (r.dependsOn.getD []).any (fun d => canonicalTarget d == y)) ||
    triggers.any (fun t => !(t.dependsOn.getD []).isEmpty && (resId t == y))

theorem mem_dependantsStep (acc : List String) (r : Resource) (y : String) :
    y ∈ dependantsStep acc r ↔
      y ∈ acc ∨ ∃ d ∈ r.dependsOn.getD [], canonicalTarget d = y := by
  cases hds : r.dependsOn with
  | none => simp [dependantsStep, hds]
  | some ds =>
    simp only [dependantsStep, hds, Option.getD_some]
    by_cases h1 : ds.length = 1
    · rw [if_pos (by simp [h1])]
      obtain ⟨d, rfl⟩ : ∃ d, ds = [d] := by
        cases ds with
        | nil => simp at h1
        | cons a t =>
          cases t with
          | nil => exact ⟨a, rfl⟩
          | cons b u => simp at h1
      rw [mem_addUnique]
      simp [eq_comm]
    · rw [if_neg (by simpa using h1)]
      rw [mem_foldl_prop (fun a d => addUnique a (canonicalTarget d))
        (fun d y2 => canonicalTarget d = y2)
        (fun acc2 d y2 => (mem_addUnique acc2 (canonicalTarget d) y2).trans
          (or_congr Iff.rfl eq_comm))]

theorem mem_triggersStep (acc : List String) (t : Resource) (y : String) :
    y ∈ triggersStep acc t ↔
      y ∈ acc ∨ ((t.dependsOn.getD []) ≠ [] ∧ resId t = y) := by
  cases hds : t.dependsOn with
  | none => simp [triggersStep, hds]
  | some ds =>
    simp only [triggersStep, hds, Option.getD_some]
    by_cases h : 1 ≤ ds.length
    · rw [if_pos h, mem_addUnique]
      have hne : ds ≠ [] := by
        intro hnil
        rw [hnil] at h
        simp at h
      simp [hne, eq_comm]
    · rw [if_neg h]
      have hnil : ds = [] := List.eq_nil_of_length_eq_zero (by omega)
      simp [hnil]

theorem mem_buildDependantsList (rs triggers : List Resource) (y : String) :
    y ∈ buildDependantsList rs triggers ↔
      (∃ r ∈ rs, ∃ d ∈ r.dependsOn.getD [], canonicalTarget d = y) ∨
        (∃ t ∈ triggers, (t.dependsOn.getD []) ≠ [] ∧ resId t = y) := by
  unfold buildDependantsList
  rw [mem_foldl_prop triggersStep
    (fun t y2 => (t.dependsOn.getD []) ≠ [] ∧ resId t = y2) mem_triggersStep]
  rw [mem_foldl_prop dependantsStep
    (fun r y2 => ∃ d ∈ r.dependsOn.getD [], canonicalTarget d = y2) mem_dependantsStep]
  simp only [List.not_mem_nil, false_or]

theorem referencedSpecB_iff (adf : ADF) (triggers : List Resource) (y : String) :
    referencedSpecB adf triggers y = true ↔
      (∃ r ∈ adf.resources, ∃ d ∈ r.dependsOn.getD [], canonicalTarget d = y) ∨
        (∃ t ∈ triggers, (t.dependsOn.getD []) ≠ [] ∧ resId t = y) := by
  simp only [referencedSpecB, Bool.or_eq_true, List.any_eq_true, Bool.and_eq_true,
    beq_iff_eq, Bool.not_eq_true', List.isEmpty_eq_false, ne_eq]

/-- Claim C2: for every document the orphan list equals declared minus
referenced in declaration order, where declared is the deduplicated list of
family|name identifiers of every top-level resource, referenced collects the
canonicalized targets of every dependsOn entry, and every trigger with one or
more dependsOn entries additionally contributes its own identifier; a
trigger with an empty or absent dependsOn is not removed by the
trigger-specific step. -/
theorem c2_orphans_are_declared_minus_referenced (adf : ADF) (triggers : List Resource) :
    get_resource_dependants adf triggers =
      (declaredSpec adf).filter (fun y => !(referencedSpecB adf triggers y)) := by
  unfold get_resource_dependants
  have hres : buildResourcesList adf.resources = declaredSpec adf := by
    unfold buildResourcesList declaredSpec pyDedup resourcesListStep
    rw [List.foldl_map]
  rw [hres]
  apply List.filter_congr
  intro y hy
  have hcb : (buildDependantsList adf.resources triggers).contains y =
      referencedSpecB adf triggers y := by
    by_cases hP : (∃ r ∈ adf.resources, ∃ d ∈ r.dependsOn.getD [], canonicalTarget d = y) ∨
        (∃ t ∈ triggers, (t.dependsOn.getD []) ≠ [] ∧ resId t = y)
    · have h1 : (buildDependantsList adf.resources triggers).contains y = true :=
        List.elem_iff.mpr ((mem_buildDependantsList adf.resources triggers y).mpr hP)
      have h2 : referencedSpecB adf triggers y = true :=
        (referencedSpecB_iff adf triggers y).mpr hP
      rw [h1, h2]
    · have h1 : (buildDependantsList adf.resources triggers).contains y = false := by
        rw [Bool.eq_false_iff]
        intro hc
        exact hP ((mem_buildDependantsList adf.resources triggers y).mp (List.elem_iff.mp hc))
      have h2 : referencedSpecB adf triggers y = false := by
        rw [Bool.eq_false_iff]
        intro hc
        exact hP ((referencedSpecB_iff adf triggers y).mp hc)
      rw [h1, h2]
  rw [hcb]

/-- Inner loop shared by both dependency scans of
check_pipeline_impossible_execution_chain (adf_linter.py lines 166-169 and
174-177): record the target of every entry carrying the given condition. -/
def condInnerStep (cond : String) (acc : List String) (d : Dep) : List String :=
  if d.dependencyConditions.contains cond then addUnique acc d.activity else acc

/-- Step over one activity for activity_failure_dependencies
(adf_linter.py lines 164-169): only activities whose dependsOn list has more
than one entry contribute their Failed targets. -/
def failStep (acc : List String) (a : Activity) : List String :=
  match a.dependsOn with
  | some ds => if 1 < ds.length then ds.foldl (condInnerStep "Failed") acc else acc
  | none => acc

/-- activity_failure_dependencies of adf_linter.py lines 161-169. -/
def activity_failure_dependencies (acts : List Activity) : List String :=
  acts.foldl failStep []

/-- Step over one activity for activity_success_dependencies
(adf_linter.py lines 173-177): a present, nonempty dependsOn contributes its
Succeeded targets. -/
def succMidStep (acc : List String) (a : Activity) : List String :=
  match a.dependsOn with
  | some ds => if 1 ≤ ds.length then ds.foldl (condInnerStep "Succeeded") acc else acc
  | none => acc

/-- Step over one failure-dependency name (adf_linter.py lines 171-177):
scan the activities literally bearing that name. -/
def succStep (acts : List Activity) (acc : List String) (n : String) : List String :=
  (acts.filter (fun a => a.name == n)).foldl succMidStep acc

/-- activity_success_dependencies of adf_linter.py lines 162 and 171-177. -/
def activity_success_dependencies (acts : List Activity) (failures : List String) : List String :=
  failures.foldl (succStep acts) []

/-- Per-pipeline verdict of adf_linter.py lines 179-180: the problems list
(failure dependencies also appearing among success dependencies) is
nonempty. -/
def hasContradictionActs (acts : List Activity) : Bool :=
  !(((activity_failure_dependencies acts).filter
      (fun p => (activity_success_dependencies acts
        (activity_failure_dependencies acts)).contains p)).isEmpty)

/-- Spec-side definition, from claim C3: mustHaveFailed is the set of
activity names appearing with a Failed condition inside the dependsOn list of
some activity whose dependsOn list has more than one entry. -/
def SpecMustHaveFailed (acts : List Activity) (n : String) : Prop :=
  ∃ a ∈ acts, ∃ ds, a.dependsOn = some ds ∧ 1 < ds.length ∧
    ∃ d ∈ ds, "Failed" ∈ d.dependencyConditions ∧ d.activity = n

/-- Spec-side definition, from claim C3: mustHaveSucceeded is the set of
Succeeded-condition targets taken from the dependsOn lists of the activities
named in mustHaveFailed. -/
def SpecMustHaveSucceeded (acts : List Activity) (m : String) : Prop :=
  ∃ n, SpecMustHaveFailed acts n ∧ ∃ a ∈ acts, a.name = n ∧
    ∃ ds, a.dependsOn = some ds ∧
      ∃ d ∈ ds, "Succeeded" ∈ d.dependencyConditions ∧ d.activity = m

theorem mem_condInnerStep (cond : String) (acc : List String) (d : Dep) (y : String) :
    y ∈ condInnerStep cond acc d ↔
      y ∈ acc ∨ (cond ∈ d.dependencyConditions ∧ d.activity = y) := by
  unfold condInnerStep
  cases h : d.dependencyConditions.contains cond with
  | false =>
    have hnm : cond ∉ d.dependencyConditions := by
      intro hm
      have h2 : d.dependencyConditions.contains cond = true := List.elem_iff.mpr hm
      rw [h] at h2
      exact Bool.noConfusion h2
    simp [hnm]
  | true =>
    have hm : cond ∈ d.dependencyConditions := List.elem_iff.mp h
    rw [if_pos rfl, mem_addUnique]
    simp [hm, eq_comm]

theorem mem_failStep (acc : List String) (a : Activity) (y : String) :
    y ∈ failStep acc a ↔
      y ∈ acc ∨ ∃ ds, a.dependsOn = some ds ∧ 1 < ds.length ∧
        ∃ d ∈ ds, "Failed" ∈ d.dependencyConditions ∧ d.activity = y := by
  cases hds : a.dependsOn with
  | none => simp [failStep, hds]
  | some ds =>
    simp only [failStep, hds, Option.some.injEq]
    by_cases h : 1 < ds.length
    · rw [if_pos h]
      rw [mem_foldl_prop (condInnerStep "Failed")
        (fun d y2 => "Failed" ∈ d.dependencyConditions ∧ d.activity = y2)
        (mem_condInnerStep "Failed")]
      constructor
      · rintro (hy | ⟨d, hd, hc, he⟩)
        · exact Or.inl hy
        · exact Or.inr ⟨ds, rfl, h, d, hd, hc, he⟩
      · rintro (hy | ⟨ds2, hds2, hlen, d, hd, hc, he⟩)
        · exact Or.inl hy
        · subst hds2
          exact Or.inr ⟨d, hd, hc, he⟩
    · rw [if_neg h]
      constructor
      · exact Or.inl
      · rintro (hy | ⟨ds2, hds2, hlen, _⟩)
        · exact hy
        · subst hds2
          exact absurd hlen h

theorem mem_succMidStep (acc : List String) (a : Activity) (y : String) :
    y ∈ succMidStep acc a ↔
      y ∈ acc ∨ ∃ ds, a.dependsOn = some ds ∧
        ∃ d ∈ ds, "Succeeded" ∈ d.dependencyConditions ∧ d.activity = y := by
  cases hds : a.dependsOn with
  | none => simp [succMidStep, hds]
  | some ds =>
    simp only [succMidStep, hds, Option.some.injEq]
    by_cases h : 1 ≤ ds.length
    · rw [if_pos h]
      rw [mem_foldl_prop (condInnerStep "Succeeded")
        (fun d y2 => "Succeeded" ∈ d.dependencyConditions ∧ d.activity = y2)
        (mem_condInnerStep "Succeeded")]
      constructor
      · rintro (hy | ⟨d, hd, hc, he⟩)
        · exact Or.inl hy
        · exact Or.inr ⟨ds, rfl, d, hd, hc, he⟩
      · rintro (hy | ⟨ds2, hds2, d, hd, hc, he⟩)
        · exact Or.inl hy
        · subst hds2
          exact Or.inr ⟨d, hd, hc, he⟩
    · rw [if_neg h]
      have hnil : ds = [] := List.eq_nil_of_length_eq_zero (by omega)
      subst hnil
      constructor
      · exact Or.inl
      · rintro (hy | ⟨ds2, hds2, d, hd, _⟩)
        · exact hy
        · subst hds2
          exact absurd hd (List.not_mem_nil d)

theorem mem_succStep (acts : List Activity) (acc : List String) (n : String) (y : String) :
    y ∈ succStep acts acc n ↔
      y ∈ acc ∨ ∃ a ∈ acts, a.name = n ∧ ∃ ds, a.dependsOn = some ds ∧
        ∃ d ∈ ds, "Succeeded" ∈ d.dependencyConditions ∧ d.activity = y := by
  unfold succStep
  rw [mem_foldl_prop succMidStep
    (fun a y2 => ∃ ds, a.dependsOn = some ds ∧
      ∃ d ∈ ds, "Succeeded" ∈ d.dependencyConditions ∧ d.activity = y2)
    (fun acc2 a y2 => mem_succMidStep acc2 a y2)]
  apply or_congr Iff.rfl
  constructor
  · rintro ⟨a, haf, hC⟩
    have hm := List.mem_filter.mp haf
    exact ⟨a, hm.1, by simpa using hm.2, hC⟩
  · rintro ⟨a, ha, hn, hC⟩
    exact ⟨a, List.mem_filter.mpr ⟨ha, by simp [hn]⟩, hC⟩

theorem mem_activity_failure_dependencies (acts : List Activity) (y : String) :
    y ∈ activity_failure_dependencies acts ↔ SpecMustHaveFailed acts y := by
  unfold activity_failure_dependencies SpecMustHaveFailed
  rw [mem_foldl_prop failStep
    (fun a y2 => ∃ ds, a.dependsOn = some ds ∧ 1 < ds.length ∧
      ∃ d ∈ ds, "Failed" ∈ d.dependencyConditions ∧ d.activity = y2)
    mem_failStep]
  simp only [List.not_mem_nil, false_or]

theorem mem_activity_success_dependencies (acts : List Activity) (f : List String) (y : String) :
    y ∈ activity_success_dependencies acts f ↔
      ∃ n ∈ f, ∃ a ∈ acts, a.name = n ∧ ∃ ds, a.dependsOn = some ds ∧
        ∃ d ∈ ds, "Succeeded" ∈ d.dependencyConditions ∧ d.activity = y := by
  unfold activity_success_dependencies
  rw [mem_foldl_prop (succStep acts)
    (fun n y2 => ∃ a ∈ acts, a.name = n ∧ ∃ ds, a.dependsOn = some ds ∧
      ∃ d ∈ ds, "Succeeded" ∈ d.dependencyConditions ∧ d.activity = y2)
    (fun acc n y2 => mem_succStep acts acc n y2)]
  simp only [List.not_mem_nil, false_or]

/-- The source per-pipeline verdict holds exactly when some activity name is
in both spec-side sets. -/
theorem hasContradiction_iff (acts : List Activity) :
    hasContradictionActs acts = true ↔
      ∃ x, SpecMustHaveFailed acts x ∧ SpecMustHaveSucceeded acts x := by
  unfold hasContradictionActs
  rw [Bool.not_eq_true', List.isEmpty_eq_false]
  constructor
  · intro h
    obtain ⟨x, hx⟩ := List.exists_mem_of_ne_nil _ h
    have hmem := List.mem_filter.mp hx
    refine ⟨x, (mem_activity_failure_dependencies acts x).mp hmem.1, ?_⟩
    have hxs := List.elem_iff.mp hmem.2
    obtain ⟨n, hnf, rest⟩ := (mem_activity_success_dependencies acts _ x).mp hxs
    exact ⟨n, (mem_activity_failure_dependencies acts n).mp hnf, rest⟩
  · rintro ⟨x, hxf, n, hnf, rest⟩
    have hmf : x ∈ activity_failure_dependencies acts :=
      (mem_activity_failure_dependencies acts x).mpr hxf
    have hms : x ∈ activity_success_dependencies acts (activity_failure_dependencies acts) :=
      (mem_activity_success_dependencies acts _ x).mpr
        ⟨n, (mem_activity_failure_dependencies acts n).mpr hnf, rest⟩
    exact List.ne_nil_of_mem (List.mem_filter.mpr ⟨hmf, List.elem_iff.mpr hms⟩)

theorem specFailed_congr (l1 l2 : List Activity) (hmem : ∀ z, z ∈ l1 ↔ z ∈ l2) (n : String) :
    SpecMustHaveFailed l1 n ↔ SpecMustHaveFailed l2 n := by
  unfold SpecMustHaveFailed
  exact exists_congr fun a => and_congr (hmem a) Iff.rfl

theorem specSucceeded_congr (l1 l2 : List Activity) (hmem : ∀ z, z ∈ l1 ↔ z ∈ l2) (m : String) :
    SpecMustHaveSucceeded l1 m ↔ SpecMustHaveSucceeded l2 m := by
  unfold SpecMustHaveSucceeded
  exact exists_congr fun n => and_congr (specFailed_congr l1 l2 hmem n)
    (exists_congr fun a => and_congr (hmem a) Iff.rfl)

/-- Two activity lists with the same members receive the same verdict. -/
theorem hasContradiction_congr (l1 l2 : List Activity) (hmem : ∀ z, z ∈ l1 ↔ z ∈ l2) :
    hasContradictionActs l1 = hasContradictionActs l2 := by
  have hiff : (hasContradictionActs l1 = true) ↔ (hasContradictionActs l2 = true) := by
    rw [hasContradiction_iff, hasContradiction_iff]
    exact exists_congr fun x =>
      and_congr (specFailed_congr l1 l2 hmem x) (specSucceeded_congr l1 l2 hmem x)
  cases hc1 : hasContradictionActs l1 <;> cases hc2 : hasContradictionActs l2 <;> simp_all

/-- Claim C8: whether the contradiction detector flags a pipeline is
invariant under swapping the declaration order of any two activities of its
activities list (the two orderings shown differ exactly by exchanging x and
y). -/
theorem c8_swap_invariance (A B C : List Activity) (x y : Activity) :
    hasContradictionActs (A ++ x :: (B ++ y :: C)) =
      hasContradictionActs (A ++ y :: (B ++ x :: C)) := by
  apply hasContradiction_congr
  intro z
  simp only [List.mem_append, List.mem_cons]
  tauto

/-- Spec-side decidable form of SpecMustHaveFailed, written from the words of
claim C3. -/
def specMustHaveFailedB (acts : List Activity) (n : String) : Bool :=
  acts.any fun a =>
    match a.dependsOn with
    | some ds => decide (1 < ds.length) &&
        ds.any (fun d => d.dependencyConditions.contains "Failed" && d.activity == n)
    | none => false

/-- Spec-side decidable form of SpecMustHaveSucceeded, written from the words
of claim C3: Succeeded targets of the dependsOn lists of activities whose
name is in mustHaveFailed. -/
def specMustHaveSucceededB (acts : List Activity) (m : String) : Bool :=
  acts.any fun a =>
    specMustHaveFailedB acts a.name &&
      (match a.dependsOn with
       | some ds => ds.any (fun d => d.dependencyConditions.contains "Succeeded" && d.activity == m)
       | none => false)

/-- Spec-side decidable contradiction verdict: the intersection of
mustHaveFailed and mustHaveSucceeded is nonempty.  Every member of
mustHaveFailed occurs as the target of some dependsOn entry, so quantifying
the candidate over all dependsOn targets is exhaustive. -/
def specHasContradictionB (acts : List Activity) : Bool :=
  acts.any fun a =>
    (a.dependsOn.getD []).any fun d =>
      specMustHaveFailedB acts d.activity && specMustHaveSucceededB acts d.activity

theorem specMustHaveFailedB_iff (acts : List Activity) (n : String) :
    specMustHaveFailedB acts n = true ↔ SpecMustHaveFailed acts n := by
  unfold specMustHaveFailedB SpecMustHaveFailed
  rw [List.any_eq_true]
  apply exists_congr
  intro a
  apply and_congr Iff.rfl
  cases hds : a.dependsOn with
  | none => simp
  | some ds =>
    simp only [Option.some.injEq, Bool.and_eq_true, decide_eq_true_eq, List.any_eq_true,
      beq_iff_eq]
    constructor
    · rintro ⟨hlen, d, hd, hc, ha⟩
      exact ⟨ds, rfl, hlen, d, hd, List.elem_iff.mp hc, ha⟩
    · rintro ⟨ds2, hds2, hlen, d, hd, hc, ha⟩
      subst hds2
      exact ⟨hlen, d, hd, List.elem_iff.mpr hc, ha⟩

theorem specMustHaveSucceededB_iff (acts : List Activity) (m : String) :
    specMustHaveSucceededB acts m = true ↔ SpecMustHaveSucceeded acts m := by
  unfold specMustHaveSucceededB SpecMustHaveSucceeded
  rw [List.any_eq_true]
  constructor
  · rintro ⟨a, ha, hcond⟩
    rw [Bool.and_eq_true] at hcond
    obtain ⟨hf, hrest⟩ := hcond
    cases hds : a.dependsOn with
    | none => rw [hds] at hrest; exact Bool.noConfusion hrest
    | some ds =>
      rw [hds] at hrest
      rw [List.any_eq_true] at hrest
      obtain ⟨d, hd, hdc⟩ := hrest
      rw [Bool.and_eq_true, beq_iff_eq] at hdc
      exact ⟨a.name, (specMustHaveFailedB_iff acts a.name).mp hf,
        a, ha, rfl, ds, hds, d, hd, List.elem_iff.mp hdc.1, hdc.2⟩
  · rintro ⟨n, hf, a, ha, hname, ds, hds, d, hd, hc, hact⟩
    refine ⟨a, ha, ?_⟩
    rw [Bool.and_eq_true]
    constructor
    · rw [hname]
      exact (specMustHaveFailedB_iff acts n).mpr hf
    · rw [hds, List.any_eq_true]
      exact ⟨d, hd, by rw [Bool.and_eq_true, beq_iff_eq]
                       exact ⟨List.elem_iff.mpr hc, hact⟩⟩

theorem specHasContradictionB_iff (acts : List Activity) :
    specHasContradictionB acts = true ↔
      ∃ x, SpecMustHaveFailed acts x ∧ SpecMustHaveSucceeded acts x := by
  unfold specHasContradictionB
  simp only [List.any_eq_true, Bool.and_eq_true, specMustHaveFailedB_iff,
    specMustHaveSucceededB_iff]
  constructor
  · rintro ⟨a, ha, d, hd, hf, hs⟩
    exact ⟨d.activity, hf, hs⟩
  · rintro ⟨x, hf, hs⟩
    obtain ⟨a, ha, ds, hds, hlen, d, hd, hcond, hact⟩ := hf
    refine ⟨a, ha, d, ?_, ?_, ?_⟩
    · rw [hds]
      simpa using hd
    · rw [hact]
      exact ⟨a, ha, ds, hds, hlen, d, hd, hcond, hact⟩
    · rw [hact]
      exact hs

/-- The verdict computed by the source equals the spec-side verdict. -/
theorem hasContradiction_eq_specB (acts : List Activity) :
    hasContradictionActs acts = specHasContradictionB acts := by
  cases hc1 : hasContradictionActs acts with
  | false =>
    cases hc2 : specHasContradictionB acts with
    | false => rfl
    | true =>
      exfalso
      have hp := (specHasContradictionB_iff acts).mp hc2
      have hx := (hasContradiction_iff acts).mpr hp
      rw [hc1] at hx
      exact Bool.noConfusion hx
  | true =>
    cases hc2 : specHasContradictionB acts with
    | false =>
      exfalso
      have hp := (hasContradiction_iff acts).mp hc1
      have hx := (specHasContradictionB_iff acts).mpr hp
      rw [hc2] at hx
      exact Bool.noConfusion hx
    | true => rfl

/-- One row of the per-rule summary table of the checker. -/
structure SummaryRow where
  issueCount : Nat
  checkDetail : String
  severity : String
  deriving DecidableEq

/-- One row of the verbose finding table of the checker. -/
structure DetailRow where
  component : String
  name : String
  checkDetail : String
  severity : String
  deriving DecidableEq

/-- The mutable state of ADFLintChecker (adf_linter.py lines 34-39). -/
structure CheckerState where
  check_number : Nat
  summary_table : List SummaryRow
  verbose_detail_table : List DetailRow
  verbose : Bool
  ignore_assertion : Bool
  deriving DecidableEq

/-- Common shape of every check method: increment check_number, accumulate
detail rows when verbose is set, append exactly one summary row.  The first
component of a successful computation is the issue counter, the second the
finding rows the check would emit in verbose mode; a raised Python error
propagates and aborts the run, discarding the state. -/
def mkCheck (e : Except PyErr (Nat × List DetailRow)) (cd sev : String)
    (st : CheckerState) : Except PyErr CheckerState :=
  match e with
  | .error err => .error err
  | .ok (c, rows) => .ok { st with
      check_number := st.check_number + 1,
      summary_table := st.summary_table ++ [⟨c, cd, sev⟩],
      verbose_detail_table := st.verbose_detail_table ++ (if st.verbose then rows else []) }

/-- Loop of check_pipeline_impossible_execution_chain over one pipeline
(adf_linter.py lines 159-188): direct subscript of properties.activities
(KeyError when absent), then one counter increment and at most one finding
row per flagged pipeline. -/
def impossibleStep (acc : Nat × List DetailRow) (p : Resource) :
    Except PyErr (Nat × List DetailRow) :=
  match p.properties.activities with
  | none => .error .keyError
  | some acts =>
    if hasContradictionActs acts then
      .ok (acc.1 + 1, acc.2 ++ [⟨"Pipeline", clean_name p.name,
        "Has an impossible AND/OR activity execution chain.", "High"⟩])
    else .ok acc

/-- The pipeline loop of the impossible-chain check, run to completion or to
the first raised error. -/
def computeImpossibleGo : List Resource → (Nat × List DetailRow) →
    Except PyErr (Nat × List DetailRow)
  | [], acc => .ok acc
  | p :: t, acc =>
    match impossibleStep acc p with
    | .error e => .error e
    | .ok acc2 => computeImpossibleGo t acc2

def compute_pipeline_impossible (pipelines : List Resource) :
    Except PyErr (Nat × List DetailRow) :=
  computeImpossibleGo pipelines (0, [])

/-- ADFLintChecker.check_pipeline_impossible_execution_chain
(adf_linter.py lines 152-196). -/
def check_pipeline_impossible_execution_chain (st : CheckerState)
    (pipelines : List Resource) : Except PyErr CheckerState :=
  mkCheck (compute_pipeline_impossible pipelines)
    "Pipeline(s) with an impossible AND/OR activity execution chain." "High" st

/-- Source-side per-pipeline flag (false when the activities key is absent,
a case in which the check raises instead of counting). -/
def pipelineFlaggedB (p : Resource) : Bool :=
  match p.properties.activities with
  | some acts => hasContradictionActs acts
  | none => false

/-- Spec-side per-pipeline flag, from claim C3. -/
def specFlaggedB (p : Resource) : Bool :=
  match p.properties.activities with
  | some acts => specHasContradictionB acts
  | none => false

theorem flaggedB_eq (p : Resource) : pipelineFlaggedB p = specFlaggedB p := by
  unfold pipelineFlaggedB specFlaggedB
  cases p.properties.activities with
  | none => rfl
  | some acts => exact hasContradiction_eq_specB acts

theorem countP_ext {α : Type} (p q : α → Bool) (h : ∀ a, p a = q a) :
    ∀ l : List α, l.countP p = l.countP q := by
  intro l
  induction l with
  | nil => rfl
  | cons a t ih => simp [List.countP_cons, h a, ih]

theorem computeImpossibleGo_count :
    ∀ (pl : List Resource) (acc r : Nat × List DetailRow),
      computeImpossibleGo pl acc = .ok r → r.1 = acc.1 + pl.countP pipelineFlaggedB := by
  intro pl
  induction pl with
  | nil =>
    intro acc r h
    injection h with h2
    subst h2
    simp
  | cons p t ih =>
    intro acc r h
    unfold computeImpossibleGo at h
    cases hstep : impossibleStep acc p with
    | error e =>
      rw [hstep] at h
      exact Except.noConfusion h
    | ok acc2 =>
      rw [hstep] at h
      have h2 : computeImpossibleGo t acc2 = Except.ok r := h
      have htail := ih acc2 r h2
      cases hacts : p.properties.activities with
      | none =>
        rw [impossibleStep, hacts] at hstep
        exact Except.noConfusion hstep
      | some acts =>
        simp only [impossibleStep, hacts] at hstep
        by_cases hc : hasContradictionActs acts = true
        · rw [if_pos hc] at hstep
          have hacc2 := Except.ok.inj hstep
          have hacc21 : acc2.1 = acc.1 + 1 := by rw [← hacc2]
          have hflag : pipelineFlaggedB p = true := by
            simp only [pipelineFlaggedB, hacts]
            exact hc
          rw [List.countP_cons, hflag]
          simp only [if_true]
          omega
        · rw [if_neg hc] at hstep
          have hacc2 := Except.ok.inj hstep
          have hacc21 : acc2.1 = acc.1 := by rw [← hacc2]
          have hflag : pipelineFlaggedB p = false := by
            simp only [pipelineFlaggedB, hacts]
            exact Bool.of_not_eq_true hc
          rw [List.countP_cons, hflag]
          simp
          omega

/-- Bool observer: the embedded computation completed without a raised
error. -/
def isOkB {α : Type} (e : Except PyErr α) : Bool :=
  match e with
  | .ok _ => true
  | .error _ => false

/-- Bool observer: the embedded computation aborted with a raised error. -/
def isErrorB {α : Type} (e : Except PyErr α) : Bool :=
  match e with
  | .ok _ => false
  | .error _ => true

/-- The summary table of a completed run, empty on an aborted one. -/
def okSummary (e : Except PyErr CheckerState) : List SummaryRow :=
  match e with
  | .ok st => st.summary_table
  | .error _ => []

/-- Claim C3: for every pipeline the contradiction detector computes
mustHaveFailed as the Failed-condition targets inside dependsOn lists longer
than one entry, mustHaveSucceeded as the Succeeded targets of the dependsOn
lists of the activities named in mustHaveFailed, and a completed check
appends one summary row whose issue count flags each pipeline with a
nonempty intersection exactly once, with severity High. -/
theorem c3_contradiction_check_summary (pipelines : List Resource) (st : CheckerState)
    (h : isOkB (check_pipeline_impossible_execution_chain st pipelines) = true) :
    okSummary (check_pipeline_impossible_execution_chain st pipelines) =
      st.summary_table ++ [⟨pipelines.countP specFlaggedB,
        "Pipeline(s) with an impossible AND/OR activity execution chain.", "High"⟩] := by
  unfold check_pipeline_impossible_execution_chain at h ⊢
  cases hc : compute_pipeline_impossible pipelines with
  | error e =>
    rw [hc] at h
    exact Bool.noConfusion h
  | ok pr =>
    obtain ⟨n, rows⟩ := pr
    have hn : n = 0 + pipelines.countP pipelineFlaggedB :=
      computeImpossibleGo_count pipelines (0, []) (n, rows) hc
    have hcount : pipelines.countP pipelineFlaggedB = pipelines.countP specFlaggedB :=
      countP_ext pipelineFlaggedB specFlaggedB flaggedB_eq pipelines
    simp only [mkCheck, okSummary]
    rw [hn, hcount]
    simp

/-- Activity W of the claim C3 witness: depends on X Failed and Q Succeeded,
a two-entry AND combination. -/
def actW : Activity :=
  { name := "W", type := none, description := none, policy := none,
    typeProperties := none,
    dependsOn := some [⟨"X", ["Failed"]⟩, ⟨"Q", ["Succeeded"]⟩] }

/-- Activity X of the claim C3 witness: carries a Succeeded dependency whose
target is X itself, so X must both fail and succeed. -/
def actX : Activity :=
  { name := "X", type := none, description := none, policy := none,
    typeProperties := none, dependsOn := some [⟨"X", ["Succeeded"]⟩] }

/-- Pipeline properties of the claim C3 witness. -/
def propsC3 : Props :=
  { description := none, annotations := none, folder := some ⟨some "F"⟩,
    activities := some [actW, actX], type := none, typeProperties := none }

/-- Concrete pipeline list exercising claim C3. -/
def plC3 : List Resource :=
  [{ name := "f/P1x", type := "Microsoft.DataFactory/factories/pipelines",
     properties := propsC3, dependsOn := none }]

theorem c3_contradiction_check_summary_witness :
    isOkB (check_pipeline_impossible_execution_chain ⟨0, [], [], false, false⟩ plC3) = true ∧
      okSummary (check_pipeline_impossible_execution_chain ⟨0, [], [], false, false⟩ plC3) =
        ([] : List SummaryRow) ++ [⟨plC3.countP specFlaggedB,
          "Pipeline(s) with an impossible AND/OR activity execution chain.", "High"⟩] :=
  ⟨by decide, c3_contradiction_check_summary plC3 ⟨0, [], [], false, false⟩ (by decide)⟩

/-- Python falsiness of dict.get(key, empty-string): absent or empty. -/
def pyFalsyStr (o : Option String) : Bool :=
  (o.getD "").data.isEmpty

/-- properties.get(folder, empty-dict).get(name, empty-string). -/
def pyFolderName (pr : Props) : String :=
  match pr.folder with
  | none => ""
  | some f => f.name.getD ""

/-- check_master_pipeline_without_triggers loop (adf_linter.py lines
132-142): redundant resources whose identifier starts with pipelines and
contains master. -/
def compute_master_pipeline_without_triggers (redundant : List String) :
    Nat × List DetailRow :=
  let rs := redundant.filter (fun r => strStartsWith r "pipelines" && strContains r "master")
  (rs.length, rs.map (fun r =>
    ⟨"Pipeline", partsSecond r, "Does not have any triggers attached.", "Medium"⟩))

/-- Shared body of the three description checks over top-level resources
(adf_linter.py lines 205-217, 292-304, 529-541, 614-626, 728-740): count the
items whose properties.description is absent or empty. -/
def compute_missing_description (items : List Resource) (component : String) :
    Nat × List DetailRow :=
  let bad := items.filter (fun p => pyFalsyStr p.properties.description)
  (bad.length, bad.map (fun p =>
    ⟨component, clean_name p.name, "Does not have a description.", "Low"⟩))

/-- Shared body of the annotation checks (adf_linter.py lines 263-275,
558-570, 672-684, 757-769): count the items with at most zero annotations. -/
def compute_missing_annotations (items : List Resource) (component : String) :
    Nat × List DetailRow :=
  let bad := items.filter (fun p => decide ((p.properties.annotations.getD []).length ≤ 0))
  (bad.length, bad.map (fun p =>
    ⟨component, clean_name p.name, "Does not have any annotations.", "Low"⟩))

/-- Shared body of the folder checks (adf_linter.py lines 234-246, 643-655):
count the items whose properties.folder.name is absent or empty. -/
def compute_not_in_folder (items : List Resource) (component : String) :
    Nat × List DetailRow :=
  let bad := items.filter (fun p => (pyFolderName p.properties).data.isEmpty)
  (bad.length, bad.map (fun p =>
    ⟨component, clean_name p.name, "Not organised into a folder.", "Low"⟩))

/-- Shared body of the three orphan checks (adf_linter.py lines 502-512,
587-597, 701-711): redundant resources of the given type-family prefix. -/
def compute_orphans (redundant : List String) (fam component detail sev : String) :
    Nat × List DetailRow :=
  let rs := redundant.filter (fun r => strStartsWith r fam)
  (rs.length, rs.map (fun r => ⟨component, partsSecond r, detail, sev⟩))

/-- Loop of check_activity_timeout_values (adf_linter.py lines 350-361) as
invoked from main: each item is a (folder-name, activity) tuple, so the
Python test policy-in-activity is tuple membership, true only when the folder
name is literally the word policy (the activity dictionary never equals a
string).  When it is true, activity[policy] subscripts a tuple with a string
and raises TypeError; otherwise the item is skipped, so the counter can never
advance and no row is ever produced. -/
def computeTimeoutGo : List (String × Activity) → Nat → Except PyErr (Nat × List DetailRow)
  | [], c => .ok (c, [])
  | t :: rest, c =>
    if t.1 == "policy" then .error .typeError else computeTimeoutGo rest c

def compute_activity_timeout_values (acts : List (String × Activity)) :
    Except PyErr (Nat × List DetailRow) :=
  computeTimeoutGo acts 0

/-- ADFLintChecker.check_activity_timeout_values (adf_linter.py lines
343-369). -/
def check_activity_timeout_values (st : CheckerState) (acts : List (String × Activity)) :
    Except PyErr CheckerState :=
  mkCheck (compute_activity_timeout_values acts)
    "Activities with timeout values still set to the service default value of 7 days." "High" st

/-- Loop of check_copy_activity_diu_values (adf_linter.py lines 321-333):
this check unpacks the (folder, activity) tuples correctly; when the activity
carries a policy with a timeout key, typeProperties and type are read with
direct subscripts (KeyError when absent, typeProperties first). -/
def computeDiuGo : List (String × Activity) → (Nat × List DetailRow) →
    Except PyErr (Nat × List DetailRow)
  | [], acc => .ok acc
  | fa :: rest, acc =>
    match fa.2.policy with
    | none => computeDiuGo rest acc
    | some pol =>
      match pol.timeout with
      | none => computeDiuGo rest acc
      | some _ =>
        match fa.2.typeProperties with
        | none => .error .keyError
        | some tp =>
          match fa.2.type with
          | none => .error .keyError
          | some ty =>
            if ty == "Copy" && tp.dataIntegrationUnits.isNone then
              computeDiuGo rest (acc.1 + 1, acc.2 ++ [⟨"Activity", fa.1 ++ "/" ++ fa.2.name,
                "DIU still set to the service default value of Auto.", "High"⟩])
            else computeDiuGo rest acc

def compute_copy_activity_diu_values (acts : List (String × Activity)) :
    Except PyErr (Nat × List DetailRow) :=
  computeDiuGo acts (0, [])

/-- ADFLintChecker.check_copy_activity_diu_values (adf_linter.py lines
314-341). -/
def check_copy_activity_diu_values (st : CheckerState) (acts : List (String × Activity)) :
    Except PyErr CheckerState :=
  mkCheck (compute_copy_activity_diu_values acts)
    "Activities with DIU (Data Integration Units) values still set to the service default value of Auto" "High" st

/-- Body of check_activity_description (adf_linter.py lines 378-389) as
invoked from main: each item is a (folder, activity) tuple and the expression
activity.get raises AttributeError at the first iteration, so the loop
completes only on an empty list. -/
def compute_activity_descriptions (acts : List (String × Activity)) :
    Except PyErr (Nat × List DetailRow) :=
  if acts.isEmpty then .ok (0, []) else .error .attributeError

/-- ADFLintChecker.check_activity_description (adf_linter.py lines
371-397). -/
def check_activity_description (st : CheckerState) (acts : List (String × Activity)) :
    Except PyErr CheckerState :=
  mkCheck (compute_activity_descriptions acts)
    "Activities without a description value." "Low" st

/-- Body of check_foreach_batch_size_unset (adf_linter.py lines 406-419) as
invoked from main: the filtering comprehension evaluates act.get on a
(folder, activity) tuple and raises AttributeError on the first item; the
rest of the body is unreachable unless the list is empty. -/
def compute_foreach_batch_size_unset (acts : List (String × Activity)) :
    Except PyErr (Nat × List DetailRow) :=
  if acts.isEmpty then .ok (0, []) else .error .attributeError

/-- ADFLintChecker.check_foreach_batch_size_unset (adf_linter.py lines
399-427). -/
def check_foreach_batch_size_unset (st : CheckerState) (acts : List (String × Activity)) :
    Except PyErr CheckerState :=
  mkCheck (compute_foreach_batch_size_unset acts)
    "Activities ForEach iteration without a batch count value set." "High" st

/-- Body of check_foreach_activity_batch_size_lt_service_maximum
(adf_linter.py lines 436-448) as invoked from main: same tuple shape, same
AttributeError on any nonempty list. -/
def compute_foreach_batch_size_lt (acts : List (String × Activity)) :
    Except PyErr (Nat × List DetailRow) :=
  if acts.isEmpty then .ok (0, []) else .error .attributeError

/-- ADFLintChecker.check_foreach_activity_batch_size_lt_service_maximum
(adf_linter.py lines 429-456). -/
def check_foreach_activity_batch_size_lt_service_maximum (st : CheckerState)
    (acts : List (String × Activity)) : Except PyErr CheckerState :=
  mkCheck (compute_foreach_batch_size_lt acts)
    "Activities ForEach iteration with a batch count size that is less than the service maximum." "Medium" st

/-- Filtering comprehension of check_linked_services_using_key_vault
(adf_linter.py line 466): properties.type is read with a direct subscript for
every linked service before the main loop runs. -/
def kvFilterGo : List Resource → List Resource → Except PyErr (List Resource)
  | [], acc => .ok acc
  | l :: rest, acc =>
    match l.properties.type with
    | none => .error .keyError
    | some t => kvFilterGo rest (if t != "AzureKeyVault" then acc ++ [l] else acc)

/-- Inner loop of the key-vault check over one typeProperties item
(adf_linter.py lines 467-475): record name -> property when the value does
not mention secretName and the property name looks sensitive, otherwise
remove the bare cleaned name when present. -/
def kvInner (lsName : String) (acc : List String) (pv : String × String) : List String :=
  if !(strContains pv.2 "secretName") && is_sensitive_property pv.1 then
    (let n := lsName ++ " -> " ++ pv.1
     if n ∈ acc then acc else acc ++ [n])
  else acc.erase lsName

def kvGo : List Resource → List String → Except PyErr (List String)
  | [], acc => .ok acc
  | l :: rest, acc =>
    match l.properties.typeProperties with
    | none => .error .keyError
    | some props => kvGo rest (props.foldl (kvInner (clean_name l.name)) acc)

def compute_linked_services_using_key_vault (ls : List Resource) :
    Except PyErr (Nat × List DetailRow) :=
  match kvFilterGo ls [] with
  | .error e => .error e
  | .ok filtered =>
    match kvGo filtered [] with
    | .error e => .error e
    | .ok names => .ok (names.length, names.map (fun n =>
        ⟨"Linked Service", n, "Not using Key Vault to store credentials.", "High"⟩))

/-- ADFLintChecker.check_linked_services_using_key_vault (adf_linter.py
lines 458-493). -/
def check_linked_services_using_key_vault (st : CheckerState) (ls : List Resource) :
    Except PyErr CheckerState :=
  mkCheck (compute_linked_services_using_key_vault ls)
    "Linked Service(s) not using Azure Key Vault to store credentials." "High" st

/-- ADFLintChecker.check_master_pipeline_without_triggers (adf_linter.py
lines 125-150). -/
def check_master_pipeline_without_triggers (st : CheckerState) (redundant : List String) :
    Except PyErr CheckerState :=
  mkCheck (.ok (compute_master_pipeline_without_triggers redundant))
    "Master Pipeline(s) without any triggers attached. Directly or indirectly." "Medium" st

/-- ADFLintChecker.check_pipeline_descriptions (adf_linter.py lines
198-225). -/
def check_pipeline_descriptions (st : CheckerState) (pipelines : List Resource) :
    Except PyErr CheckerState :=
  mkCheck (.ok (compute_missing_description pipelines "Pipeline"))
    "Pipeline(s) without a description value." "Low" st

/-- ADFLintChecker.check_pipelines_not_in_folder (adf_linter.py lines
227-254). -/
def check_pipelines_not_in_folder (st : CheckerState) (pipelines : List Resource) :
    Except PyErr CheckerState :=
  mkCheck (.ok (compute_not_in_folder pipelines "Pipeline"))
    "Pipeline(s) not organised into folders." "Low" st

/-- ADFLintChecker check of pipeline annotations (adf_linter.py lines
256-283). -/
def check_pipelines_without_annotations (st : CheckerState) (pipelines : List Resource) :
    Except PyErr CheckerState :=
  mkCheck (.ok (compute_missing_annotations pipelines "Pipeline"))
    "Pipeline(s) without annotations." "Low" st

/-- ADFLintChecker.check_data_flow_descriptions (adf_linter.py lines
285-312). -/
def check_data_flow_descriptions (st : CheckerState) (dataflows : List Resource) :
    Except PyErr CheckerState :=
  mkCheck (.ok (compute_missing_description dataflows "Data Flow"))
    "Data Flow(s) without a description value." "Low" st

/-- ADFLintChecker.check_orphaned_linked_services (adf_linter.py lines
495-520). -/
def check_orphaned_linked_services (st : CheckerState) (redundant : List String) :
    Except PyErr CheckerState :=
  mkCheck (.ok (compute_orphans redundant "linkedServices" "Linked Service"
    "Not used by any other resource." "Medium"))
    "Linked Service(s) not used by any other resource." "Medium" st

/-- ADFLintChecker.check_linked_services_has_description (adf_linter.py
lines 522-549). -/
def check_linked_services_has_description (st : CheckerState) (ls : List Resource) :
    Except PyErr CheckerState :=
  mkCheck (.ok (compute_missing_description ls "Linked Service"))
    "Linked Service(s) without a description value." "Low" st

/-- ADFLintChecker check of linked-service annotations (adf_linter.py lines
551-578). -/
def check_linked_services_has_annotations (st : CheckerState) (ls : List Resource) :
    Except PyErr CheckerState :=
  mkCheck (.ok (compute_missing_annotations ls "Linked Service"))
    "Linked Service(s) without annotations." "Low" st

/-- ADFLintChecker.check_orphaned_dataset (adf_linter.py lines 580-605). -/
def check_orphaned_dataset (st : CheckerState) (redundant : List String) :
    Except PyErr CheckerState :=
  mkCheck (.ok (compute_orphans redundant "datasets" "Dataset"
    "Not used by any other resource." "Medium"))
    "Dataset(s) not used by any other resource." "Medium" st

/-- ADFLintChecker.check_datasets_without_description (adf_linter.py lines
607-634). -/
def check_datasets_without_description (st : CheckerState) (dss : List Resource) :
    Except PyErr CheckerState :=
  mkCheck (.ok (compute_missing_description dss "Dataset"))
    "Dataset(s) without a description value." "Low" st

/-- ADFLintChecker.check_datasets_not_in_folder (adf_linter.py lines
636-663). -/
def check_datasets_not_in_folder (st : CheckerState) (dss : List Resource) :
    Except PyErr CheckerState :=
  mkCheck (.ok (compute_not_in_folder dss "Dataset"))
    "Dataset(s) not organised into folders." "Low" st

/-- ADFLintChecker check of dataset annotations (adf_linter.py lines
665-692). -/
def check_datasets_without_annotations (st : CheckerState) (dss : List Resource) :
    Except PyErr CheckerState :=
  mkCheck (.ok (compute_missing_annotations dss "Dataset"))
    "Dataset(s) without annotations." "Low" st

/-- ADFLintChecker.check_orphaned_triggers (adf_linter.py lines 694-719). -/
def check_orphaned_triggers (st : CheckerState) (redundant : List String) :
    Except PyErr CheckerState :=
  mkCheck (.ok (compute_orphans redundant "triggers" "Trigger"
    "Not used by any other resource." "Medium"))
    "Trigger(s) not used by any other resource." "Medium" st

/-- ADFLintChecker.check_triggers_has_description (adf_linter.py lines
721-748). -/
def check_triggers_has_description (st : CheckerState) (trs : List Resource) :
    Except PyErr CheckerState :=
  mkCheck (.ok (compute_missing_description trs "Trigger"))
    "Trigger(s) without a description value." "Low" st

/-- ADFLintChecker check of trigger annotations (adf_linter.py lines
750-777). -/
def check_triggers_without_annotations (st : CheckerState) (trs : List Resource) :
    Except PyErr CheckerState :=
  mkCheck (.ok (compute_missing_annotations trs "Trigger"))
    "Trigger(s) without annotations." "Low" st

/-- Resource slices of ADFLintChecker.main (adf_linter.py lines 90-95). -/
def pipelinesOf (adf : ADF) : List Resource :=
  adf.resources.filter (fun r => r.type == "Microsoft.DataFactory/factories/pipelines")

def linkedServicesOf (adf : ADF) : List Resource :=
  adf.resources.filter (fun r => r.type == "Microsoft.DataFactory/factories/linkedServices")

def datasetsOf (adf : ADF) : List Resource :=
  adf.resources.filter (fun r => r.type == "Microsoft.DataFactory/factories/datasets")

def dataflowsOf (adf : ADF) : List Resource :=
  adf.resources.filter (fun r => r.type == "Microsoft.DataFactory/factories/dataflows")

def triggersOf (adf : ADF) : List Resource :=
  adf.resources.filter (fun r => r.type == "Microsoft.DataFactory/factories/triggers")

/-- Direct lookup pipeline.properties.folder.name of adf_linter.py line 93:
KeyError when either key is absent. -/
def folderNameOf (pr : Props) : Except PyErr String :=
  match pr.folder with
  | none => .error .keyError
  | some f =>
    match f.name with
    | none => .error .keyError
    | some n => .ok n

/-- One pipeline of the activities comprehension of adf_linter.py line 93:
the activities key is read first (KeyError when absent); the folder lookup is
evaluated once per activity with an identical result, so an empty activities
list never evaluates it. -/
def slicePipeline (p : Resource) : Except PyErr (List (String × Activity)) :=
  match p.properties.activities with
  | none => .error .keyError
  | some acts =>
    if acts.isEmpty then .ok []
    else
      match folderNameOf p.properties with
      | .error e => .error e
      | .ok fn => .ok (acts.map (fun a => (fn, a)))

def sliceGo : List Resource → List (String × Activity) →
    Except PyErr (List (String × Activity))
  | [], acc => .ok acc
  | p :: rest, acc =>
    match slicePipeline p with
    | .error e => .error e
    | .ok rows => sliceGo rest (acc ++ rows)

/-- The full activities comprehension of adf_linter.py line 93. -/
def sliceActivities (pipelines : List Resource) :
    Except PyErr (List (String × Activity)) :=
  sliceGo pipelines []

/-- Sequential execution of the check methods of ADFLintChecker.main
(adf_linter.py lines 99-121): the first raised error aborts the run. -/
def runList : List (CheckerState → Except PyErr CheckerState) → CheckerState →
    Except PyErr CheckerState
  | [], st => .ok st
  | f :: fs, st =>
    match f st with
    | .error e => .error e
    | .ok st2 => runList fs st2

/-- The fixed check catalog of ADFLintChecker.main in source order
(adf_linter.py lines 99-120), closed over the document slices. -/
def checksList (adf : ADF) (acts : List (String × Activity)) :
    List (CheckerState → Except PyErr CheckerState) :=
  [fun st => check_master_pipeline_without_triggers st
     (get_resource_dependants adf (triggersOf adf)),
   fun st => check_pipeline_impossible_execution_chain st (pipelinesOf adf),
   fun st => check_pipeline_descriptions st (pipelinesOf adf),
   fun st => check_pipelines_not_in_folder st (pipelinesOf adf),
   fun st => check_pipelines_without_annotations st (pipelinesOf adf),
   fun st => check_data_flow_descriptions st (dataflowsOf adf),
   fun st => check_activity_timeout_values st acts,
   fun st => check_copy_activity_diu_values st acts,
   fun st => check_activity_description st acts,
   fun st => check_foreach_batch_size_unset st acts,
   fun st => check_foreach_activity_batch_size_lt_service_maximum st acts,
   fun st => check_linked_services_using_key_vault st (linkedServicesOf adf),
   fun st => check_orphaned_linked_services st
     (get_resource_dependants adf (triggersOf adf)),
   fun st => check_linked_services_has_description st (linkedServicesOf adf),
   fun st => check_linked_services_has_annotations st (linkedServicesOf adf),
   fun st => check_orphaned_dataset st (get_resource_dependants adf (triggersOf adf)),
   fun st => check_datasets_without_description st (datasetsOf adf),
   fun st => check_datasets_not_in_folder st (datasetsOf adf),
   fun st => check_datasets_without_annotations st (datasetsOf adf),
   fun st => check_orphaned_triggers st (get_resource_dependants adf (triggersOf adf)),
   fun st => check_triggers_has_description st (triggersOf adf),
   fun st => check_triggers_without_annotations st (triggersOf adf)]

/-- ADFLintChecker.assert_adf_lint_free condition (adf_linter.py line 80):
len(verbose_detail_table) > len(summary_table) > 0. -/
def has_errors (st : CheckerState) : Bool :=
  decide (st.summary_table.length < st.verbose_detail_table.length ∧
    0 < st.summary_table.length)

/-- ADFLintChecker.main (adf_linter.py lines 87-123) up to the final report
state: slice the document, then run every check in catalog order. -/
def runMain (adf : ADF) (verbose ignore_assertion : Bool) : Except PyErr CheckerState :=
  match sliceActivities (pipelinesOf adf) with
  | .error e => .error e
  | .ok acts => runList (checksList adf acts) ⟨0, [], [], verbose, ignore_assertion⟩

/-- Process exit status of one lint invocation: an uncaught error exits
with 1; a completed run returns normally (status 0) when assertion is
suppressed, and otherwise calls sys.exit(has_errors), which maps False to 0
and True to 1 (adf_linter.py lines 78-81, main.py lines 17-20). -/
def processExitCode (adf : ADF) (verbose ignore_assertion : Bool) : Nat :=
  match runMain adf verbose ignore_assertion with
  | .error _ => 1
  | .ok st => if ignore_assertion then 0 else (if has_errors st then 1 else 0)

/-- Number of findings recorded by a completed run (0 on an aborted one). -/
def runDetailLen (adf : ADF) (verbose ignore_assertion : Bool) : Nat :=
  match runMain adf verbose ignore_assertion with
  | .ok st => st.verbose_detail_table.length
  | .error _ => 0

/-- Number of rule results recorded by a completed run (0 on an aborted
one). -/
def runSummaryLen (adf : ADF) (verbose ignore_assertion : Bool) : Nat :=
  match runMain adf verbose ignore_assertion with
  | .ok st => st.summary_table.length
  | .error _ => 0

/-- Length of the sliced activities list, 0 when slicing raises. -/
def slicedLen (adf : ADF) : Nat :=
  match sliceActivities (pipelinesOf adf) with
  | .ok l => l.length
  | .error _ => 0

/-- Properties object with every optional key absent. -/
def propsEmpty : Props :=
  { description := none, annotations := none, folder := none, activities := none,
    type := none, typeProperties := none }

/-- Document for claim C1: a single data flow with no description.  The run
completes; the only finding is the missing data-flow description. -/
def docC1 : ADF :=
  ⟨[{ name := "f/DF1x", type := "Microsoft.DataFactory/factories/dataflows",
      properties := propsEmpty, dependsOn := none }]⟩

/-- A plain activity with no optional key set. -/
def actPlain : Activity :=
  { name := "A1", type := some "Wait", description := none, policy := none,
    typeProperties := none, dependsOn := none }

/-- Pipeline properties with folder F and one plain activity. -/
def propsC9 : Props :=
  { description := none, annotations := none, folder := some ⟨some "F"⟩,
    activities := some [actPlain], type := none, typeProperties := none }

/-- Document for claim C9: one pipeline in folder F with one activity. -/
def docC9 : ADF :=
  ⟨[{ name := "f/P9x", type := "Microsoft.DataFactory/factories/pipelines",
      properties := propsC9, dependsOn := none }]⟩

/-- A ForEach activity with no typeProperties key, the missing-field shape of
claim C5. -/
def actForeach : Activity :=
  { name := "FE1", type := some "ForEach", description := none, policy := none,
    typeProperties := none, dependsOn := none }

/-- Pipeline properties with folder F and the ForEach activity. -/
def propsC5 : Props :=
  { description := none, annotations := none, folder := some ⟨some "F"⟩,
    activities := some [actForeach], type := none, typeProperties := none }

/-- Document for claim C5: one pipeline whose only activity is a ForEach
without typeProperties. -/
def docC5 : ADF :=
  ⟨[{ name := "f/P5x", type := "Microsoft.DataFactory/factories/pipelines",
      properties := propsC5, dependsOn := none }]⟩

/-- Pipeline properties with an empty activities list and no folder. -/
def propsC10 : Props :=
  { description := none, annotations := none, folder := none,
    activities := some [], type := none, typeProperties := none }

/-- Document for claim C10: one pipeline with an empty activities list and no
folder key. -/
def docC10 : ADF :=
  ⟨[{ name := "f/P10x", type := "Microsoft.DataFactory/factories/pipelines",
      properties := propsC10, dependsOn := none }]⟩

/-- An activity whose policy.timeout is the service default. -/
def actTimeout : Activity :=
  { name := "AT", type := some "Wait", description := none,
    policy := some ⟨some "7.00:00:00"⟩, typeProperties := none, dependsOn := none }

/-- Spec-side predicate, from claim C4: the activity policy.timeout equals
the literal default string. -/
def hasDefaultTimeout (a : Activity) : Bool :=
  match a.policy with
  | some pol => pol.timeout == some "7.00:00:00"
  | none => false

/-- Claim C4: the claim says the timeout rule counts one issue per activity
whose policy.timeout is the default 7.00:00:00.  The code receives
(folder, activity) tuples and tests the string policy for tuple membership,
which is false for any folder not literally named policy, so the rule reports
zero issues even though exactly one activity carries the default timeout. -/
theorem c4_timeout_rule_reports_zero_on_default_timeout :
    compute_activity_timeout_values [("F", actTimeout)] = Except.ok (0, []) ∧
      [actTimeout].countP hasDefaultTimeout = 1 := by
  constructor
  · decide
  · decide

/-- Claim C1 counterexample: a completed verbose run over docC1 records one
finding and twenty-two rule results, yet the process exits 0, because the
exit condition compares the two table lengths instead of testing for any
finding. -/
theorem c1_exit_zero_despite_findings :
    runDetailLen docC1 true false = 1 ∧ runSummaryLen docC1 true false = 22 ∧
      processExitCode docC1 true false = 0 := by
  refine ⟨by decide, by decide, by decide⟩

/-- Claim C1 (amended): after a completed run the process exit status is
non-zero exactly when assertion is enabled and the number of findings
strictly exceeds the number of rule results, which is itself positive; with
assertion suppressed a completed run always exits 0. -/
theorem c1_exit_code_characterization (adf : ADF) (v ig : Bool)
    (h : isOkB (runMain adf v ig) = true) :
    processExitCode adf v ig ≠ 0 ↔
      (ig = false ∧ runSummaryLen adf v ig < runDetailLen adf v ig ∧
        0 < runSummaryLen adf v ig) := by
  unfold processExitCode runDetailLen runSummaryLen
  cases hr : runMain adf v ig with
  | error e =>
    rw [hr] at h
    exact Bool.noConfusion h
  | ok st =>
    cases ig with
    | true => simp
    | false =>
      cases hE : has_errors st with
      | true =>
        have hp : st.summary_table.length < st.verbose_detail_table.length ∧
            0 < st.summary_table.length := by
          have h2 := hE
          unfold has_errors at h2
          exact of_decide_eq_true h2
        simp [hE, hp.1, hp.2]
      | false =>
        have hp : ¬(st.summary_table.length < st.verbose_detail_table.length ∧
            0 < st.summary_table.length) := by
          have h2 := hE
          unfold has_errors at h2
          exact of_decide_eq_false h2
        simp only [hE, Bool.false_eq_true, if_false, ne_eq]
        constructor
        · intro hx
          exact absurd trivial hx
        · rintro ⟨-, hA, hB⟩
          exact absurd ⟨hA, hB⟩ hp

theorem c1_exit_code_characterization_witness :
    isOkB (runMain docC1 true false) = true ∧
      (processExitCode docC1 true false ≠ 0 ↔
        (false = false ∧ runSummaryLen docC1 true false < runDetailLen docC1 true false ∧
          0 < runSummaryLen docC1 true false)) :=
  ⟨by decide, c1_exit_code_characterization docC1 true false (by decide)⟩

/-- Claim C9 counterexample: with verbose disabled and assertion enabled the
exit status is not always 0: docC9 has a nonempty activities slice, so
check_activity_description raises AttributeError on the (folder, activity)
tuples, the run aborts, and the process exits 1. -/
theorem c9_crash_exits_nonzero : processExitCode docC9 false false = 1 := by
  decide

/-- A check preserves the non-verbose invariant when it leaves the verbose
flag clear and never touches the finding table of a non-verbose state. -/
def preservesNonverbose (f : CheckerState → Except PyErr CheckerState) : Prop :=
  ∀ s s2, s.verbose = false → f s = .ok s2 →
    s2.verbose = false ∧ s2.verbose_detail_table = s.verbose_detail_table

theorem mkCheck_preserves (e : Except PyErr (Nat × List DetailRow)) (cd sev : String) :
    preservesNonverbose (fun st => mkCheck e cd sev st) := by
  intro s s2 hv h
  cases e with
  | error err => exact Except.noConfusion h
  | ok pr =>
    obtain ⟨c, rows⟩ := pr
    simp only [mkCheck] at h
    have h2 := Except.ok.inj h
    rw [← h2]
    simp [hv]

theorem runList_preserves (l : List (CheckerState → Except PyErr CheckerState))
    (hl : ∀ f ∈ l, preservesNonverbose f) :
    ∀ s s2, s.verbose = false → runList l s = .ok s2 →
      s2.verbose = false ∧ s2.verbose_detail_table = s.verbose_detail_table := by
  induction l with
  | nil =>
    intro s s2 hv h
    injection h with h2
    subst h2
    exact ⟨hv, rfl⟩
  | cons f fs ih =>
    intro s s2 hv h
    unfold runList at h
    cases hf : f s with
    | error e =>
      rw [hf] at h
      exact Except.noConfusion h
    | ok smid =>
      rw [hf] at h
      have h2 : runList fs smid = .ok s2 := h
      have hpf := hl f (List.mem_cons_self f fs) s smid hv hf
      have hrest := ih (fun g hg => hl g (List.mem_cons_of_mem f hg)) smid s2 hpf.1 h2
      exact ⟨hrest.1, hrest.2.trans hpf.2⟩

theorem checksList_preserves (adf : ADF) (acts : List (String × Activity)) :
    ∀ f ∈ checksList adf acts, preservesNonverbose f := by
  intro f hf
  simp only [checksList, List.mem_cons, List.not_mem_nil, or_false] at hf
  rcases hf with rfl | rfl | rfl | rfl | rfl | rfl | rfl | rfl | rfl | rfl | rfl | rfl |
    rfl | rfl | rfl | rfl | rfl | rfl | rfl | rfl | rfl | rfl <;>
    exact mkCheck_preserves _ _ _

/-- Claim C9 (amended): for every document whose run completes, when verbose
output is disabled and assertion is enabled the process exit status is 0:
findings are appended to the detail table only when verbose is enabled, and
the exit condition requires the detail table to be strictly longer than the
summary table. -/
theorem c9_nonverbose_completed_run_exits_zero (adf : ADF)
    (h : isOkB (runMain adf false false) = true) :
    processExitCode adf false false = 0 := by
  unfold processExitCode
  cases hr : runMain adf false false with
  | error e =>
    rw [hr] at h
    exact Bool.noConfusion h
  | ok st =>
    have hdetail : st.verbose_detail_table = [] := by
      unfold runMain at hr
      cases hs : sliceActivities (pipelinesOf adf) with
      | error e =>
        rw [hs] at hr
        exact Except.noConfusion hr
      | ok acts =>
        rw [hs] at hr
        have h2 : runList (checksList adf acts) ⟨0, [], [], false, false⟩ = .ok st := hr
        have hres := runList_preserves (checksList adf acts) (checksList_preserves adf acts)
          ⟨0, [], [], false, false⟩ st rfl h2
        exact hres.2
    have hhe : has_errors st = false := by
      unfold has_errors
      rw [hdetail]
      simp
    simp [hhe]

theorem c9_nonverbose_completed_run_exits_zero_witness :
    isOkB (runMain ⟨[]⟩ false false) = true ∧ processExitCode ⟨[]⟩ false false = 0 :=
  ⟨by decide, c9_nonverbose_completed_run_exits_zero ⟨[]⟩ (by decide)⟩

/-- Claim C5 counterexample: docC5 holds a ForEach activity with no
typeProperties key, yet the run is aborted: the activity rules receive
(folder, activity) tuples, check_activity_description raises AttributeError,
and no later rule in the catalog executes. -/
theorem c5_run_aborts_on_missing_field :
    runMain docC5 true false = Except.error PyErr.attributeError := by
  decide

/-- Running a catalog that contains one check failing on every state aborts
the run. -/
theorem runList_error_of_failing (pre post : List (CheckerState → Except PyErr CheckerState))
    (f : CheckerState → Except PyErr CheckerState)
    (hf : ∀ s, isErrorB (f s) = true) :
    ∀ s, isErrorB (runList (pre ++ f :: post) s) = true := by
  induction pre with
  | nil =>
    intro s
    simp only [List.nil_append]
    unfold runList
    cases hfs : f s with
    | error e => rfl
    | ok s2 =>
      have h2 := hf s
      rw [hfs] at h2
      exact Bool.noConfusion h2
  | cons g gs ih =>
    intro s
    simp only [List.cons_append]
    unfold runList
    cases hg : g s with
    | error e => rfl
    | ok s2 => exact ih s2

/-- Claim C5 (amended): a rule that meets an item missing an expected field
does not skip it; whenever the sliced activities list is nonempty the run
aborts with an uncaught error before the catalog completes, and the remaining
rules never execute. -/
theorem c5_nonempty_activities_abort_run (adf : ADF) (v ig : Bool)
    (h : slicedLen adf ≠ 0) : isErrorB (runMain adf v ig) = true := by
  unfold slicedLen at h
  cases hs : sliceActivities (pipelinesOf adf) with
  | error e =>
    unfold runMain
    rw [hs]
    rfl
  | ok acts =>
    rw [hs] at h
    have hne : acts ≠ [] := by
      intro hnil
      subst hnil
      exact h rfl
    have hie : acts.isEmpty = false := by
      rw [List.isEmpty_eq_false]
      exact hne
    have hfdesc : ∀ s, isErrorB (check_activity_description s acts) = true := by
      intro s
      simp [check_activity_description, mkCheck, compute_activity_descriptions, hie, isErrorB]
    unfold runMain
    rw [hs]
    exact runList_error_of_failing
      [fun st => check_master_pipeline_without_triggers st
         (get_resource_dependants adf (triggersOf adf)),
       fun st => check_pipeline_impossible_execution_chain st (pipelinesOf adf),
       fun st => check_pipeline_descriptions st (pipelinesOf adf),
       fun st => check_pipelines_not_in_folder st (pipelinesOf adf),
       fun st => check_pipelines_without_annotations st (pipelinesOf adf),
       fun st => check_data_flow_descriptions st (dataflowsOf adf),
       fun st => check_activity_timeout_values st acts,
       fun st => check_copy_activity_diu_values st acts]
      [fun st => check_foreach_batch_size_unset st acts,
       fun st => check_foreach_activity_batch_size_lt_service_maximum st acts,
       fun st => check_linked_services_using_key_vault st (linkedServicesOf adf),
       fun st => check_orphaned_linked_services st
         (get_resource_dependants adf (triggersOf adf)),
       fun st => check_linked_services_has_description st (linkedServicesOf adf),
       fun st => check_linked_services_has_annotations st (linkedServicesOf adf),
       fun st => check_orphaned_dataset st (get_resource_dependants adf (triggersOf adf)),
       fun st => check_datasets_without_description st (datasetsOf adf),
       fun st => check_datasets_not_in_folder st (datasetsOf adf),
       fun st => check_datasets_without_annotations st (datasetsOf adf),
       fun st => check_orphaned_triggers st (get_resource_dependants adf (triggersOf adf)),
       fun st => check_triggers_has_description st (triggersOf adf),
       fun st => check_triggers_without_annotations st (triggersOf adf)]
      (fun st => check_activity_description st acts)
      hfdesc ⟨0, [], [], v, ig⟩

theorem c5_nonempty_activities_abort_run_witness :
    slicedLen docC5 ≠ 0 ∧ isErrorB (runMain docC5 true false) = true :=
  ⟨by decide, c5_nonempty_activities_abort_run docC5 true false (by decide)⟩

/-- Claim C10 counterexample: a pipeline lacking folder.name but carrying an
empty activities list passes the slicing stage without a lookup error, and
the pipelines-not-in-folder rule then reports exactly one issue for it. -/
theorem c10_folderless_empty_activities_reaches_rules :
    sliceActivities (pipelinesOf docC10) = Except.ok [] ∧
      (compute_not_in_folder (pipelinesOf docC10) "Pipeline").1 = 1 := by
  constructor
  · decide
  · decide

/-- The shapes on which the slicing comprehension of adf_linter.py line 93
raises a lookup error, per claim C10 as amended. -/
def pipelineSliceBad (p : Resource) : Prop :=
  p.properties.activities = none ∨
    ∃ acts, p.properties.activities = some acts ∧ acts ≠ [] ∧
      (p.properties.folder = none ∨ ∃ f, p.properties.folder = some f ∧ f.name = none)

theorem folderNameOf_error_iff (pr : Props) :
    isErrorB (folderNameOf pr) = true ↔
      (pr.folder = none ∨ ∃ f, pr.folder = some f ∧ f.name = none) := by
  cases hf : pr.folder with
  | none => simp [folderNameOf, hf, isErrorB]
  | some f =>
    cases hn : f.name with
    | none => simp [folderNameOf, hf, hn, isErrorB]
    | some n => simp [folderNameOf, hf, hn, isErrorB]

theorem slicePipeline_error_iff (p : Resource) :
    isErrorB (slicePipeline p) = true ↔ pipelineSliceBad p := by
  cases hacts : p.properties.activities with
  | none => simp [slicePipeline, pipelineSliceBad, hacts, isErrorB]
  | some acts =>
    by_cases hie : acts.isEmpty = true
    · have hnil : acts = [] := by
        cases acts with
        | nil => rfl
        | cons a b => exact Bool.noConfusion hie
      subst hnil
      simp [slicePipeline, pipelineSliceBad, hacts, isErrorB]
    · have hne : acts ≠ [] := by
        intro hnil
        subst hnil
        exact hie rfl
      cases hfn : folderNameOf p.properties with
      | error e =>
        have hferr := (folderNameOf_error_iff p.properties).mp (by rw [hfn]; rfl)
        simp [slicePipeline, pipelineSliceBad, hacts, hie, hfn, isErrorB, hne, hferr]
      | ok fn =>
        have hfok : ¬(p.properties.folder = none ∨
            ∃ f, p.properties.folder = some f ∧ f.name = none) := by
          intro hbad
          have hx := (folderNameOf_error_iff p.properties).mpr hbad
          rw [hfn] at hx
          exact Bool.noConfusion hx
        simp [slicePipeline, pipelineSliceBad, hacts, hie, hfn, isErrorB, hne]
        constructor
        · intro hnone
          exact hfok (Or.inl hnone)
        · intro f hsome hnone
          exact hfok (Or.inr ⟨f, hsome, hnone⟩)

theorem sliceGo_error_iff :
    ∀ (pl : List Resource) (acc : List (String × Activity)),
      isErrorB (sliceGo pl acc) = true ↔ ∃ p ∈ pl, pipelineSliceBad p := by
  intro pl
  induction pl with
  | nil =>
    intro acc
    simp [sliceGo, isErrorB]
  | cons p t ih =>
    intro acc
    unfold sliceGo
    cases hsp : slicePipeline p with
    | error e =>
      have hbad := (slicePipeline_error_iff p).mp (by rw [hsp]; rfl)
      simp only [isErrorB]
      constructor
      · intro _
        exact ⟨p, List.mem_cons_self p t, hbad⟩
      · intro _
        trivial
    | ok rows =>
      have hgood : ¬pipelineSliceBad p := by
        intro hbad
        have := (slicePipeline_error_iff p).mpr hbad
        rw [hsp] at this
        exact Bool.noConfusion this
      rw [ih]
      constructor
      · rintro ⟨q, hq, hbadq⟩
        exact ⟨q, List.mem_cons_of_mem p hq, hbadq⟩
      · rintro ⟨q, hq, hbadq⟩
        rcases List.mem_cons.mp hq with rfl | hqt
        · exact absurd hbadq hgood
        · exact ⟨q, hqt, hbadq⟩

/-- Claim C10 (amended): slicing the input fails with a lookup error exactly
when some pipeline lacks an activities list, or has a nonempty activities
list but lacks folder.name; consequently a folderless pipeline with an empty
activities list does reach the rule stage, where the pipelines-not-in-folder
rule reports it. -/
theorem c10_slicing_error_characterization :
    (∀ pl : List Resource,
      isErrorB (sliceActivities pl) = true ↔ ∃ p ∈ pl, pipelineSliceBad p) ∧
      (sliceActivities (pipelinesOf docC10) = Except.ok [] ∧
        (compute_not_in_folder (pipelinesOf docC10) "Pipeline").1 = 1) := by
  refine ⟨fun pl => sliceGo_error_iff pl [], by decide, by decide⟩
